import Mathlib

/-!
Shallow embedding of the newsletterz retrieval-and-ranking pipeline.

Sources embedded here:
* `src/search/company_registry.py` — `CompanyRegistry.COMPANIES`,
  `CompanyRegistry.match_sender`;
* `src/search/search_executor.py` — `SearchExecutor._build_company_filter`,
  `_build_date_filter`, `_combine_filters`, `_normalize_distances`,
  `_consolidate_results`, `_format_results`, `_get_embedding`,
  `_build_semantic_query`, `execute_search`;
* `src/llm/enhanced_search_chain.py` — `EnhancedEmailSearchChain.search`,
  `_filter_by_relevance`, the surviving (second) `_format_results`.

Python floats are modelled as `ℚ`, unix timestamps as `ℤ`.  ChromaDB
query replies, dictionaries of parallel lists `ids` / `documents` /
`metadatas` / `distances`, are modelled as lists of per-hit records (the
Python code only ever walks the parallel lists at a common index `i`).
Raised exceptions are modelled with `Except String`.
-/

namespace Newsletterz

/-- Does `pat` occur at the head of `s`?  (Helper for Python's `in` on
strings.) -/
def subAt : List Char → List Char → Bool
  | [], _ => true
  | _ :: _, [] => false
  | p :: ps, c :: cs => p == c && subAt ps cs

/-- Does `pat` occur contiguously anywhere in `s`?  Models Python's
`pat in s` substring test (an empty pattern matches everything). -/
def hasSub (pat : List Char) : List Char → Bool
  | [] => subAt pat []
  | c :: cs => subAt pat (c :: cs) || hasSub pat cs

/-- Python `pat in s` for strings. -/
def strContains (s pat : String) : Bool :=
  hasSub pat.data s.data

/-- Python's `str.lower()` (character-wise; all registry strings and the
inputs of interest are ASCII, where `Char.toLower` agrees with it). -/
def pyLower (s : String) : String :=
  ⟨s.data.map Char.toLower⟩

/-- One entry of `CompanyRegistry.COMPANIES`: the registry key together
with the `"domains"` and `"patterns"` lists of the nested dict. -/
structure RegistryEntry where
  key : String
  domains : List String
  patterns : List String
deriving DecidableEq

/-- `CompanyRegistry.COMPANIES` from `src/search/company_registry.py`,
in the dict's (insertion) iteration order. -/
def COMPANIES : List RegistryEntry :=
  [ ⟨"mckinsey", ["mckinsey.com", "email.mckinsey.com"], ["mckinsey", "mck@"]⟩,
    ⟨"bcg", ["bcg.com", "email.bcg.com"], ["@bcg", "boston consult"]⟩,
    ⟨"bain", ["bain.com"], ["@bain", "bain &"]⟩,
    ⟨"deloitte", ["deloitte.com", "email.deloitte.com"], ["@deloitte"]⟩,
    ⟨"pwc", ["pwc.com"], ["@pwc", "pricewaterhouse"]⟩,
    ⟨"ey", ["ey.com"], ["@ey", "ernst & young"]⟩,
    ⟨"kpmg", ["kpmg.com"], ["@kpmg"]⟩,
    ⟨"meta", ["meta.com", "fb.com", "facebook.com", "instagram.com", "whatsapp.com"],
      ["@meta", "@fb", "@facebook", "@instagram", "@whatsapp"]⟩,
    ⟨"apple", ["apple.com"], ["@apple"]⟩,
    ⟨"amazon", ["amazon.com", "aws.amazon.com", "aws.com"], ["@amazon", "@aws"]⟩,
    ⟨"netflix", ["netflix.com"], ["@netflix"]⟩,
    ⟨"google", ["google.com", "alphabet.com", "gmail.com"], ["@google", "@alphabet"]⟩,
    ⟨"microsoft", ["microsoft.com", "ms.com"], ["@microsoft", "@ms"]⟩,
    ⟨"imf", ["imf.org", "internationalmonetaryfund.org"],
      ["@imf", "international monetary fund"]⟩,
    ⟨"idb", ["iadb.org"], ["@idb", "@iadb", "inter-american development bank"]⟩,
    ⟨"un", ["un.org", "undp.org", "unesco.org", "who.int"],
      ["@un.org", "@undp", "@unesco", "@who.int", "united nations"]⟩ ]

/-- The `for company, matchers in cls.COMPANIES.items()` loop of
`CompanyRegistry.match_sender`: first company whose domains, and
otherwise whose patterns, hit the lowercased field wins. -/
def matchSenderLoop (low : String) : List RegistryEntry → String
  | [] => "unknown"
  | e :: rest =>
    if e.domains.any (fun d => strContains low d) then e.key
    else if e.patterns.any (fun p => strContains low p) then e.key
    else matchSenderLoop low rest

/-- `CompanyRegistry.match_sender`.  The argument is `Option String` so
that Python's falsy `None` and `""` are both covered by the
`if not from_field` guard. -/
def matchSender (fromField : Option String) : String :=
  match fromField with
  | none => "unknown"
  | some s => if s = "" then "unknown" else matchSenderLoop (pyLower s) COMPANIES

/-- Backend-agnostic image of the ChromaDB `where` dictionaries built by
`SearchExecutor`. -/
inductive Filter where
  | companyIn (keys : List String)
  | dateGte (t : ℤ)
  | dateLte (t : ℤ)
  | conj (fs : List Filter)

/-- `SearchExecutor._build_company_filter`.  NOTE (faithful to the
source): the inner check `company in [v.lower() for v in variations]`
iterates the *keys* of the nested dict, i.e. the literal strings
`"domains"` and `"patterns"`, not the domain/pattern values. -/
def buildCompanyFilter (companies : List String) : Option Filter :=
  if companies.isEmpty then none
  else
    let companyVariations := companies.foldl
      (fun acc company0 =>
        let company := pyLower company0
        let acc1 :=
          if (COMPANIES.map RegistryEntry.key).contains company then acc ++ [company]
          else acc
        COMPANIES.foldl
          (fun acc2 e =>
            if ((["domains", "patterns"] : List String).map pyLower).contains company
            then acc2 ++ [e.key] else acc2)
          acc1)
      []
    if companyVariations.isEmpty then none
    else some (Filter.companyIn companyVariations)

/-- A time range whose ends are already unix timestamps (the
`datetime.timestamp()` conversion is outside the model). -/
structure TimeRange where
  start : Option ℤ
  stop : Option ℤ
deriving DecidableEq

/-- `SearchExecutor._build_date_filter`. -/
def buildDateFilter (timeRange : Option TimeRange) : Option Filter :=
  match timeRange with
  | none => none
  | some tr =>
    if tr.start = none ∧ tr.stop = none then none
    else
      let filters :=
        (match tr.start with | some t => [Filter.dateGte t] | none => []) ++
        (match tr.stop with | some t => [Filter.dateLte t] | none => [])
      if filters.length > 1 then some (Filter.conj filters)
      else filters.head?

/-- `SearchExecutor._combine_filters`. -/
def combineFilters (filters : List (Option Filter)) : Option Filter :=
  let valid := filters.filterMap id
  if valid.isEmpty then none
  else if valid.length = 1 then valid.head?
  else some (Filter.conj valid)

/-- `SearchExecutor._normalize_distances`: fixed-scale conversion
`max(0, 1 - distance / 300)` of each distance to a similarity. -/
def normalizeDistances (distances : List ℚ) : List ℚ :=
  distances.map (fun distance => max 0 (1 - distance / 300))

/-- Python `min(...)` on a list of rationals (callers guard against the
empty list, where Python would raise). -/
def qMin : List ℚ → ℚ
  | [] => 0
  | d :: ds => ds.foldl min d

/-- Python `max(...)` on a list of rationals. -/
def qMax : List ℚ → ℚ
  | [] => 0
  | d :: ds => ds.foldl max d

/-- The per-element relevance computed inside
`EnhancedEmailSearchChain._filter_by_relevance`:
`1 - ((distance - min_dist) / dist_range if dist_range > 0 else 0)`. -/
def minMaxRel (minDist distRange d : ℚ) : ℚ :=
  1 - (if distRange > 0 then (d - minDist) / distRange else 0)

/-- The list of per-candidate relevances `_filter_by_relevance` computes
for a distance pool (one value per input distance, in order). -/
def minMaxRelevances (distances : List ℚ) : List ℚ :=
  let minDist := qMin distances
  let distRange := qMax distances - minDist
  distances.map (minMaxRel minDist distRange)

/-- Python's `round(x, 3)` idealized over `ℚ`: round half to even. -/
def roundHalfEven (x : ℚ) : ℤ :=
  if x - ⌊x⌋ < 1/2 then ⌊x⌋
  else if 1/2 < x - ⌊x⌋ then ⌊x⌋ + 1
  else if ⌊x⌋ % 2 = 0 then ⌊x⌋ else ⌊x⌋ + 1

/-- `round(x, 3)`. -/
def pyRound3 (x : ℚ) : ℚ :=
  (roundHalfEven (x * 1000) : ℚ) / 1000

/-- The metadata dict of one retrieved record (fields the pipeline
reads; modelled as present, `company` and `thread_id` via `.get`). -/
structure Meta where
  subject : String
  sender : String
  company : Option String
  date : ℤ
  threadId : Option String
deriving DecidableEq

/-- One row of a ChromaDB query reply: the entries of the parallel
lists `ids` / `documents` / `metadatas` / `distances` at one index. -/
structure Hit where
  id : String
  content : String
  meta : Meta
  distance : ℚ
deriving DecidableEq

/-- One element of `combined_results` in
`SearchExecutor.execute_search`: a hit annotated with its similarity. -/
structure ExecResult where
  id : String
  content : String
  meta : Meta
  rawDistance : ℚ
  similarity : ℚ
deriving DecidableEq

/-- Stable insertion (descending by `key`) — an earlier element is
placed before later elements with an equal key. -/
def insDescBy {α β : Type} [LinearOrder β] (key : α → β) (r : α) :
    List α → List α
  | [] => [r]
  | x :: xs => if key x ≤ key r then r :: x :: xs else x :: insDescBy key r xs

/-- Python's stable `sorted(l, key=key, reverse=True)` (extensionally:
any stable sort for the same ordering computes the same list). -/
def sortDescBy {α β : Type} [LinearOrder β] (key : α → β) (l : List α) :
    List α :=
  l.foldr (insDescBy key) []

/-- Stable insertion (ascending by `key`). -/
def insAscBy {α β : Type} [LinearOrder β] (key : α → β) (r : α) :
    List α → List α
  | [] => [r]
  | x :: xs => if key r ≤ key x then r :: x :: xs else x :: insAscBy key r xs

/-- Python's stable `sorted(l, key=key)` / `l.sort(key=key)`. -/
def sortAscBy {α β : Type} [LinearOrder β] (key : α → β) (l : List α) :
    List α :=
  l.foldr (insAscBy key) []

/-- Default of the `similarity_threshold` parameter of
`SearchExecutor._consolidate_results` (0.95). -/
def defaultSimilarityThreshold : ℚ := 19/20

/-- The inner `for existing in consolidated` loop of
`SearchExecutor._consolidate_results`: find the first accepted entry
whose similarity is within `1 - similarity_threshold`; replace it (a
`list.remove` of the first equal element plus an append) when the new
result scores higher, drop the new result otherwise, and append when
nothing is close. -/
def consolidateStep (similarityThreshold : ℚ) (consolidated : List ExecResult)
    (result : ExecResult) : List ExecResult :=
  match consolidated.find?
      (fun existing => |existing.similarity - result.similarity| < 1 - similarityThreshold) with
  | some existing =>
      if existing.similarity < result.similarity
      then consolidated.erase existing ++ [result]
      else consolidated
  | none => consolidated ++ [result]

/-- The outer loop of `SearchExecutor._consolidate_results`, carrying
`seen_threads` and the accepted list.  NOTE (faithful to the source):
both thread guards are Python *truthiness* tests — `if thread_id and
thread_id in seen_threads: continue` and `if thread_id:
seen_threads.add(thread_id)` — so an empty-string `thread_id`, like a
missing one, is never skipped and never recorded. -/
def consolidateLoop (similarityThreshold : ℚ) :
    List ExecResult → List String → List ExecResult → List ExecResult
  | [], _, consolidated => consolidated
  | result :: rest, seenThreads, consolidated =>
    match result.meta.threadId with
    | some tid =>
      if tid ≠ "" ∧ tid ∈ seenThreads then
        consolidateLoop similarityThreshold rest seenThreads consolidated
      else
        consolidateLoop similarityThreshold rest
          (if tid ≠ "" then tid :: seenThreads else seenThreads)
          (consolidateStep similarityThreshold consolidated result)
    | none =>
      consolidateLoop similarityThreshold rest seenThreads
        (consolidateStep similarityThreshold consolidated result)

/-- `SearchExecutor._consolidate_results`: sort by date descending
(most recent first), then walk with the (truthiness-guarded) thread
dedup and the near-duplicate check. -/
def consolidateResults (similarityThreshold : ℚ) (results : List ExecResult) :
    List ExecResult :=
  consolidateLoop similarityThreshold
    (sortDescBy (fun r => r.meta.date) results) [] []

/-- One element of the `results` list in the dict returned by
`SearchExecutor.execute_search`. -/
structure ExecItem where
  id : String
  subject : String
  sender : String
  company : String
  date : ℤ
  content : String
  distance : ℚ
  threadId : Option String
deriving DecidableEq

/-- The dict returned by `SearchExecutor.execute_search`. -/
structure ExecOutput where
  type : String
  totalResults : ℕ
  consolidatedResults : ℕ
  returnedResults : ℕ
  results : List ExecItem
deriving DecidableEq

/-- The `combined_results` construction in
`SearchExecutor.execute_search`: zip hits with their normalized
similarities. -/
def combineHits (hits : List Hit) : List ExecResult :=
  let similarities := normalizeDistances (hits.map (·.distance))
  (hits.zip similarities).map fun hs =>
    { id := hs.1.id, content := hs.1.content, meta := hs.1.meta,
      rawDistance := hs.1.distance, similarity := hs.2 }

/-- The pure tail of `SearchExecutor.execute_search` after the vector
index reply: normalize, sort by similarity descending, consolidate,
truncate to `limit`, and shape the output dict. -/
def executeSearchPure (intentType : String) (limit : ℕ) (hits : List Hit) :
    ExecOutput :=
  let combinedResults := sortDescBy (fun r => r.similarity) (combineHits hits)
  let consolidated := consolidateResults defaultSimilarityThreshold combinedResults
  let finalResults := consolidated.take limit
  { type := intentType
    totalResults := combinedResults.length
    consolidatedResults := consolidated.length
    returnedResults := finalResults.length
    results := finalResults.map fun r =>
      { id := r.id, subject := r.meta.subject, sender := r.meta.sender,
        company := r.meta.company.getD "unknown", date := r.meta.date,
        content := r.content, distance := 1 - r.similarity,
        threadId := r.meta.threadId } }

/-- `FilterConfig` from `src/search/models.py` (time-range ends already
converted to unix timestamps). -/
structure FilterConfig where
  companies : List String
  timeRange : Option TimeRange
  keywords : List String

/-- `QueryIntent` from `src/search/models.py` (fields the executor
reads). -/
structure QueryIntent where
  type : String
  topic : String
  filters : FilterConfig

/-- `SearchExecutor._build_semantic_query`: `QueryIntent` has no
`semantic_context` attribute, so `getattr(intent, 'semantic_context',
{})` is always `{}` and the function returns `" ".join([topic])`,
i.e. the topic itself. -/
def buildSemanticQuery (topic : String) : String := topic

/-- `SearchExecutor._get_embedding`: any failure of the embedding call
is re-raised as `Exception("Failed to get embedding: ...")`. -/
def getEmbedding (embedSvc : String → Except String (List ℚ))
    (text : String) : Except String (List ℚ) :=
  match embedSvc text with
  | .ok v => .ok v
  | .error e => .error ("Failed to get embedding: " ++ e)

/-- `SearchExecutor.execute_search`, parametrized by the external
embedding service and vector index.  NOTE (faithful to the source):
the body has no `try`/`except`, so a failing step propagates as
`Except.error` instead of being turned into a result payload. -/
def executeSearch (embedSvc : String → Except String (List ℚ))
    (querySvc : List ℚ → Option Filter → ℕ → Except String (List Hit))
    (intent : QueryIntent) (limit : ℕ) : Except String ExecOutput := do
  let companyFilter := buildCompanyFilter intent.filters.companies
  let dateFilter := buildDateFilter intent.filters.timeRange
  let whereFilter := combineFilters [companyFilter, dateFilter]
  let semanticQuery := buildSemanticQuery intent.topic
  let queryEmbedding ← getEmbedding embedSvc semanticQuery
  let results ← querySvc queryEmbedding whereFilter limit
  pure (executeSearchPure intent.type limit results)

/-- `SearchExecutor._format_email_metadata`, reduced to the company
field it rewrites: a missing/`'unknown'` company is re-matched from the
`from` field. -/
def formatEmailMetadataCompany (meta : Meta) : String :=
  let company := meta.company.getD "unknown"
  if company = "unknown" then matchSender (some meta.sender) else company

/-- One element of `formatted_results` in
`SearchExecutor._format_results`. -/
structure ExecFmtItem where
  id : String
  subject : String
  sender : String
  company : String
  date : ℤ
  distance : ℚ
  content : String
deriving DecidableEq

/-- The dict returned by `SearchExecutor._format_results`. -/
inductive ExecFmtPayload where
  | emptyResult (message : String)
  | results (type : String) (totalResults returnedResults : ℕ)
      (results : List ExecFmtItem)
deriving DecidableEq

/-- The `type` key of a `SearchExecutor._format_results` payload. -/
def execFmtType : ExecFmtPayload → String
  | .emptyResult _ => "empty"
  | .results t _ _ _ => t

/-- `SearchExecutor._format_results`: empty ids give the `empty`
payload; otherwise the first `min(total, limit)` hits are formatted and
sorted by distance (by date for `timeline` intents). -/
def execFormatResults (intentType : String) (limit : ℕ) (hits : List Hit) :
    ExecFmtPayload :=
  if hits.isEmpty then
    .emptyResult "No results found matching the criteria"
  else
    let totalResults := hits.length
    let formattedResults := (hits.take (min totalResults limit)).map fun h =>
      { id := h.id, subject := h.meta.subject, sender := h.meta.sender,
        company := formatEmailMetadataCompany h.meta, date := h.meta.date,
        distance := pyRound3 h.distance, content := h.content }
    let sortedResults :=
      if intentType ≠ "timeline" then
        sortAscBy (fun x => x.distance) formattedResults
      else
        sortAscBy (fun x => x.date) formattedResults
    .results intentType totalResults sortedResults.length sortedResults

/-- One element of `formatted` in the surviving
`EnhancedEmailSearchChain._format_results`. -/
structure ChainItem where
  relevance : ℚ
  subject : String
  sender : String
  date : ℤ
  preview : String
deriving DecidableEq

/-- The payload dicts `EnhancedEmailSearchChain.search` can return,
keyed by their shape in the source. -/
inductive ChainPayload where
  | error (message : String)
  | countSingle (count : ℕ) (topic : String) (minRelevance maxRelevance : ℚ)
      (company : Option String)
  | countIntersect (count : ℕ) (topic : String) (keywords : List String)
      (individualCounts : List ℕ)
  | countNoMatch (count : ℕ) (topic : String) (minRelevance : ℚ)
  | formatted (type : String) (results : List ChainItem) (count : ℕ)
deriving DecidableEq

/-- The `type` key of a `ChainPayload`. -/
def payloadType : ChainPayload → String
  | .error _ => "error"
  | .countSingle .. => "count"
  | .countIntersect .. => "count"
  | .countNoMatch .. => "count"
  | .formatted t _ _ => t

/-- The `count` key of a `ChainPayload` (for the shapes that have one;
`formatted` payloads carry `count = len(formatted)`). -/
def payloadCount : ChainPayload → Option ℕ
  | .error _ => none
  | .countSingle c .. => some c
  | .countIntersect c .. => some c
  | .countNoMatch c .. => some c
  | .formatted _ _ c => some c

/-- The `results` list of a `formatted` payload. -/
def payloadResults : ChainPayload → List ChainItem
  | .formatted _ rs _ => rs
  | _ => []

/-- The 200-character content preview:
`content[:200] + '...' if len(content) > 200 else content`. -/
def preview200 (content : String) : String :=
  if content.length > 200 then content.take 200 ++ "..." else content

/-- The surviving (second) `EnhancedEmailSearchChain._format_results`:
empty ids give an **error** payload; a `count` intent returns at the
loop's first iteration with `count = len(ids)`; other intents format
every hit and sort by relevance descending. -/
def chainFormatResults (intent topic : String) (company : Option String)
    (hits : List Hit) : ChainPayload :=
  if hits.isEmpty then .error "No results found"
  else if intent = "count" then
    .countSingle hits.length topic
      (pyRound3 (qMin (hits.map (·.distance))))
      (pyRound3 (qMax (hits.map (·.distance)))) company
  else
    let formattedItems := hits.map fun h =>
      { relevance := pyRound3 (1 / (1 + |h.distance|)),
        subject := h.meta.subject, sender := h.meta.sender,
        date := h.meta.date, preview := preview200 h.content }
    .formatted intent (sortDescBy (fun x => x.relevance) formattedItems)
      formattedItems.length

/-- Default of the `min_relevance` parameter of
`EnhancedEmailSearchChain.search` (0.7). -/
def defaultMinRelevance : ℚ := 7/10

/-- `EnhancedEmailSearchChain._filter_by_relevance`: min-max normalize
the pool's distances and keep the hits whose relevance reaches
`min_relevance`, overwriting each kept hit's distance with its
relevance score. -/
def filterByRelevance (minRelevance : ℚ) (hits : List Hit) : List Hit :=
  if hits.isEmpty then hits
  else
    let distances := hits.map (·.distance)
    let minDist := qMin distances
    let distRange := qMax distances - minDist
    hits.filterMap fun h =>
      let relevance := minMaxRel minDist distRange h.distance
      if minRelevance ≤ relevance then some { h with distance := relevance }
      else none

/-- The parsed-query dict consumed by `EnhancedEmailSearchChain.search`
(produced by the external LLM parse; fields the chain reads). -/
structure ParsedQuery where
  intent : String
  topic : String
  company : Option String
  keywords : List String

/-- `EnhancedEmailSearchChain._build_where_filter`'s per-company domain
lookup (with `[f"{company}.com"]` as the fallback). -/
def companyDomains (company : String) : List String :=
  if company = "mckinsey" then ["mckinsey.com", "email.mckinsey.com"]
  else if company = "deloitte" then ["deloitte.com", "email.deloitte.com"]
  else if company = "bcg" then ["bcg.com", "email.bcg.com"]
  else [company ++ ".com"]

/-- `EnhancedEmailSearchChain._build_where_filter`: the `$in` list of
`from` matchers, or `none` when no (truthy) company was parsed. -/
def buildWhereFilter (parsed : ParsedQuery) : Option (List String) :=
  match parsed.company with
  | none => none
  | some company0 =>
    if company0 = "" then none
    else
      let company := pyLower company0
      some ((companyDomains company).flatMap
        (fun d => ["@" ++ d, "<" ++ d ++ ">", d]))

/-- `set.intersection(*pools)` over id pools; Python's set iteration
order is abstracted as the first pool's order (no settled claim depends
on the order of the intersection). -/
def intersectIds (pools : List (List String)) : List String :=
  match pools with
  | [] => []
  | p :: ps => ps.foldl (fun acc q => acc.filter (fun x => q.contains x)) p

/-- The `try` body of `EnhancedEmailSearchChain.search`, parametrized by
the external embedding service and the vector index's `query`/`get`. -/
def enhancedSearchBody (embedSvc : String → Except String (List ℚ))
    (querySvc : List ℚ → Option (List String) → ℕ → Except String (List Hit))
    (getSvc : List String → Except String (List Hit))
    (parsed : ParsedQuery) (limit : ℕ) (minRelevance : ℚ) :
    Except String ChainPayload := do
  let keywords := parsed.keywords
  if keywords.length > 1 then
    let pools ← keywords.mapM (fun keyword => do
      let queryEmbedding ← embedSvc keyword
      let results ← querySvc queryEmbedding (buildWhereFilter parsed)
        (min (limit * 2) 10000)
      pure ((filterByRelevance minRelevance results).map (·.id)))
    let commonIds := intersectIds pools
    if commonIds.isEmpty then
      pure (.countNoMatch 0 parsed.topic minRelevance)
    else do
      let _firstGet ← getSvc commonIds
      if parsed.intent = "count" then
        pure (.countIntersect commonIds.length parsed.topic keywords
          (pools.map (·.length)))
      else do
        let finalResults ← getSvc commonIds
        -- the source overwrites `distances` with the constant 1.0
        pure (chainFormatResults parsed.intent parsed.topic parsed.company
          (finalResults.map fun h => { h with distance := 1 }))
  else
    let queryEmbedding ← embedSvc parsed.topic
    let results ← querySvc queryEmbedding (buildWhereFilter parsed)
      (min (limit * 2) 10000)
    pure (chainFormatResults parsed.intent parsed.topic parsed.company
      (filterByRelevance minRelevance results))

/-- `EnhancedEmailSearchChain.search`: the whole body sits in a
`try`/`except` whose handler returns `{'type': 'error', 'message':
str(e)}`, so the caller always receives a payload. -/
def enhancedSearch (embedSvc : String → Except String (List ℚ))
    (querySvc : List ℚ → Option (List String) → ℕ → Except String (List Hit))
    (getSvc : List String → Except String (List Hit))
    (parsed : ParsedQuery) (limit : ℕ) (minRelevance : ℚ) : ChainPayload :=
  match enhancedSearchBody embedSvc querySvc getSvc parsed limit minRelevance with
  | .ok payload => payload
  | .error e => .error e

/-- The selection rule asserted by the specification's
`RelevanceCliffSelector` (stated here only for comparison with the
code's `filterByRelevance`): threshold `best * multiplier`, and the
maximal leading run of distances within the threshold. -/
def cliffSelectSpec (multiplier : ℚ) : List ℚ → List ℚ
  | [] => []
  | d0 :: rest => (d0 :: rest).takeWhile (fun d => decide (d ≤ d0 * multiplier))

/-- A sample retrieval hit (used by concrete instances below). -/
def sampleHit (i : String) (d : ℚ) (date : ℤ) (tid : Option String) : Hit :=
  { id := i, content := "c", distance := d,
    meta := { subject := "s", sender := "x@y.com", company := none,
              date := date, threadId := tid } }

/-- A sample scored result (used by concrete instances below). -/
def sampleRes (i : String) (sim : ℚ) (date : ℤ) (tid : Option String) : ExecResult :=
  { id := i, content := "c", rawDistance := 0, similarity := sim,
    meta := { subject := "s", sender := "x@y.com", company := none,
              date := date, threadId := tid } }

/-! ### Auxiliary lemmas -/

lemma foldl_min_le_init (l : List ℚ) (a : ℚ) : l.foldl min a ≤ a := by
  induction l generalizing a with
  | nil => simp
  | cons x xs ih => exact le_trans (ih (min a x)) (min_le_left a x)

lemma foldl_min_le_mem : ∀ (l : List ℚ) (a : ℚ) {x : ℚ}, x ∈ l →
    l.foldl min a ≤ x
  | y :: ys, a, x, hx => by
    rcases List.mem_cons.mp hx with h | h
    · subst h
      exact le_trans (foldl_min_le_init ys (min a x)) (min_le_right a x)
    · exact foldl_min_le_mem ys (min a y) h

lemma init_le_foldl_max (l : List ℚ) (a : ℚ) : a ≤ l.foldl max a := by
  induction l generalizing a with
  | nil => simp
  | cons x xs ih => exact le_trans (le_max_left a x) (ih (max a x))

lemma mem_le_foldl_max : ∀ (l : List ℚ) (a : ℚ) {x : ℚ}, x ∈ l →
    x ≤ l.foldl max a
  | y :: ys, a, x, hx => by
    rcases List.mem_cons.mp hx with h | h
    · subst h
      exact le_trans (le_max_right a x) (init_le_foldl_max ys (max a x))
    · exact mem_le_foldl_max ys (max a y) h

lemma qMin_le_mem {ds : List ℚ} {d : ℚ} (h : d ∈ ds) : qMin ds ≤ d := by
  cases ds with
  | nil => cases h
  | cons x xs =>
    rcases List.mem_cons.mp h with h1 | h1
    · simpa [qMin, h1] using foldl_min_le_init xs x
    · exact foldl_min_le_mem xs x h1

lemma mem_le_qMax {ds : List ℚ} {d : ℚ} (h : d ∈ ds) : d ≤ qMax ds := by
  cases ds with
  | nil => cases h
  | cons x xs =>
    rcases List.mem_cons.mp h with h1 | h1
    · simpa [qMax, h1] using init_le_foldl_max xs x
    · exact mem_le_foldl_max xs x h1

lemma mem_insDescBy {α β : Type} [LinearOrder β] (key : α → β) (r a : α)
    (l : List α) : a ∈ insDescBy key r l ↔ a = r ∨ a ∈ l := by
  induction l with
  | nil => simp [insDescBy]
  | cons x xs ih =>
    by_cases h : key x ≤ key r
    · simp [insDescBy, h]
    · simp [insDescBy, h, ih]
      tauto

lemma pairwise_insDescBy {α β : Type} [LinearOrder β] (key : α → β) (r : α)
    {l : List α} (h : l.Pairwise (fun x y => key y ≤ key x)) :
    (insDescBy key r l).Pairwise (fun x y => key y ≤ key x) := by
  induction l with
  | nil => simp [insDescBy]
  | cons x xs ih =>
    rcases List.pairwise_cons.mp h with ⟨hx, hxs⟩
    by_cases hle : key x ≤ key r
    · rw [insDescBy, if_pos hle]
      refine List.pairwise_cons.mpr ⟨?_, h⟩
      intro y hy
      rcases List.mem_cons.mp hy with h1 | h1
      · subst h1; exact hle
      · exact le_trans (hx y h1) hle
    · rw [insDescBy, if_neg hle]
      refine List.pairwise_cons.mpr ⟨?_, ih hxs⟩
      intro y hy
      rcases (mem_insDescBy key r y xs).mp hy with h1 | h1
      · subst h1; exact le_of_lt (lt_of_not_le hle)
      · exact hx y h1

lemma sortDescBy_pairwise {α β : Type} [LinearOrder β] (key : α → β)
    (l : List α) :
    (sortDescBy key l).Pairwise (fun x y => key y ≤ key x) := by
  induction l with
  | nil => simp [sortDescBy]
  | cons x xs ih => exact pairwise_insDescBy key x ih

/-- Two accepted results never carry the same truthy (present and
non-empty) thread id. -/
def noDupTid (x y : ExecResult) : Prop :=
  ∀ t, t ≠ "" → x.meta.threadId = some t → y.meta.threadId ≠ some t

lemma consolidateStep_sublist (st : ℚ) (out : List ExecResult)
    (r : ExecResult) : List.Sublist (consolidateStep st out r) (out ++ [r]) := by
  unfold consolidateStep
  cases hfind : out.find?
      (fun existing => |existing.similarity - r.similarity| < 1 - st) with
  | none => exact List.Sublist.refl _
  | some e =>
    dsimp only
    split
    · exact (out.erase_sublist e).append (List.Sublist.refl [r])
    · exact List.sublist_append_left out [r]

lemma consolidateStep_invariant (st : ℚ) (out : List ExecResult)
    (r : ExecResult) (seen' : List String)
    (hp : out.Pairwise noDupTid)
    (hmem' : ∀ x ∈ out, ∀ t, t ≠ "" → x.meta.threadId = some t → t ∈ seen')
    (hr : ∀ t, t ≠ "" → r.meta.threadId = some t →
      t ∈ seen' ∧ ∀ x ∈ out, x.meta.threadId ≠ some t) :
    (∀ x ∈ consolidateStep st out r, ∀ t, t ≠ "" →
      x.meta.threadId = some t → t ∈ seen') ∧
    (consolidateStep st out r).Pairwise noDupTid := by
  have hsub := consolidateStep_sublist st out r
  constructor
  · intro x hx t ht hxt
    rcases List.mem_append.mp (hsub.subset hx) with h1 | h1
    · exact hmem' x h1 t ht hxt
    · rcases List.mem_singleton.mp h1 with rfl
      exact (hr t ht hxt).1
  · have hpa : (out ++ [r]).Pairwise noDupTid := by
      rw [List.pairwise_append]
      refine ⟨hp, List.pairwise_singleton _ _, ?_⟩
      intro x hx y hy
      rcases List.mem_singleton.mp hy with rfl
      intro t ht hxt hrt
      exact (hr t ht hrt).2 x hx hxt
    exact List.Pairwise.sublist hsub hpa

lemma consolidateLoop_pairwise (st : ℚ) :
    ∀ (rest : List ExecResult) (seen : List String) (out : List ExecResult),
    (∀ r ∈ out, ∀ t, t ≠ "" → r.meta.threadId = some t → t ∈ seen) →
    out.Pairwise noDupTid →
    (consolidateLoop st rest seen out).Pairwise noDupTid := by
  intro rest
  induction rest with
  | nil =>
    intro seen out _ hp
    simpa [consolidateLoop] using hp
  | cons r rest ih =>
    intro seen out hmem hp
    rw [consolidateLoop]
    cases htid : r.meta.threadId with
    | some tid =>
      dsimp only
      by_cases hcond : tid ≠ "" ∧ tid ∈ seen
      · rw [if_pos hcond]
        exact ih seen out hmem hp
      · rw [if_neg hcond]
        have hc := consolidateStep_invariant st out r
          (if tid ≠ "" then tid :: seen else seen) hp
          (fun x hx t ht hxt => by
            split_ifs with h
            · exact List.mem_cons_of_mem _ (hmem x hx t ht hxt)
            · exact hmem x hx t ht hxt)
          (by
            intro t ht hrt
            rw [htid] at hrt
            rcases Option.some.inj hrt with rfl
            rw [if_pos ht]
            refine ⟨List.mem_cons_self _ _, ?_⟩
            intro x hx hxt
            exact hcond ⟨ht, hmem x hx tid ht hxt⟩)
        exact ih _ _ hc.1 hc.2
    | none =>
      have hc := consolidateStep_invariant st out r seen hp hmem
        (by intro t ht hrt; rw [htid] at hrt; cases hrt)
      exact ih seen _ hc.1 hc.2

lemma pairwise_filter_tid {l : List ExecResult}
    (hp : l.Pairwise noDupTid) (t : String) (ht : t ≠ "") :
    (l.filter (fun r => r.meta.threadId == some t)).length ≤ 1 := by
  induction l with
  | nil => simp
  | cons x xs ih =>
    rcases List.pairwise_cons.mp hp with ⟨hx, hxs⟩
    by_cases hm : x.meta.threadId = some t
    · rw [List.filter_cons_of_pos (by simpa using hm)]
      have hnil : xs.filter (fun r => r.meta.threadId == some t) = [] := by
        apply List.filter_eq_nil_iff.mpr
        intro y hy
        simpa using hx y hy t ht hm
      simp [hnil]
    · rw [List.filter_cons_of_neg (by simpa using hm)]
      exact ih hxs

lemma consolidateStep_nil (st : ℚ) (r : ExecResult) :
    consolidateStep st [] r = [r] := rfl

lemma sortDescBy_pair {α β : Type} [LinearOrder β] (key : α → β) (a b : α) :
    sortDescBy key [a, b] = if key b ≤ key a then [a, b] else [b, a] := by
  simp [sortDescBy, insDescBy]

lemma consolidateLoop_two (st : ℚ) (c1 c2 : ExecResult)
    (h : ∀ t1 t2, c1.meta.threadId = some t1 → c2.meta.threadId = some t2 →
      t1 ≠ t2) :
    consolidateLoop st [c1, c2] [] [] =
      consolidateStep st (consolidateStep st [] c1) c2 := by
  rw [consolidateLoop]
  cases h1 : c1.meta.threadId with
  | some t1 =>
    dsimp only
    rw [if_neg (fun hc => List.not_mem_nil t1 hc.2)]
    by_cases h1e : t1 = ""
    · rw [if_neg (fun hh => hh h1e)]
      rw [consolidateLoop]
      cases h2 : c2.meta.threadId with
      | some t2 =>
        dsimp only
        rw [if_neg (fun hc => List.not_mem_nil t2 hc.2)]
        by_cases h2e : t2 = ""
        · rw [if_neg (fun hh => hh h2e)]
          rw [consolidateLoop]
        · rw [if_pos h2e]
          rw [consolidateLoop]
      | none =>
        dsimp only
        rw [consolidateLoop]
    · rw [if_pos h1e]
      rw [consolidateLoop]
      cases h2 : c2.meta.threadId with
      | some t2 =>
        dsimp only
        rw [if_neg (fun hc =>
          h t1 t2 h1 h2 (List.mem_singleton.mp hc.2).symm)]
        by_cases h2e : t2 = ""
        · rw [if_neg (fun hh => hh h2e)]
          rw [consolidateLoop]
        · rw [if_pos h2e]
          rw [consolidateLoop]
      | none =>
        dsimp only
        rw [consolidateLoop]
  | none =>
    dsimp only
    rw [consolidateLoop]
    cases h2 : c2.meta.threadId with
    | some t2 =>
      dsimp only
      rw [if_neg (fun hc => List.not_mem_nil t2 hc.2)]
      by_cases h2e : t2 = ""
      · rw [if_neg (fun hh => hh h2e)]
        rw [consolidateLoop]
      · rw [if_pos h2e]
        rw [consolidateLoop]
    | none =>
      dsimp only
      rw [consolidateLoop]

lemma consolidateLoop_two_same (st : ℚ) (c1 c2 : ExecResult) (t : String)
    (ht : t ≠ "") (h1 : c1.meta.threadId = some t)
    (h2 : c2.meta.threadId = some t) :
    consolidateLoop st [c1, c2] [] [] = [c1] := by
  rw [consolidateLoop, h1]
  dsimp only
  rw [if_neg (fun hc => List.not_mem_nil t hc.2), if_pos ht]
  rw [consolidateLoop, h2]
  dsimp only
  rw [if_pos ⟨ht, List.mem_singleton.mpr rfl⟩]
  rw [consolidateLoop]
  rfl

lemma matchSenderLoopEqFind (low : String) :
    ∀ (entries : List RegistryEntry),
    matchSenderLoop low entries =
      (match entries.find?
          (fun e => (e.domains ++ e.patterns).any (fun m => strContains low m)) with
       | some e => e.key
       | none => "unknown") := by
  intro entries
  induction entries with
  | nil => rfl
  | cons e rest ih =>
    by_cases hd : e.domains.any (fun d => strContains low d) = true
    · rw [matchSenderLoop, if_pos hd,
        List.find?_cons_of_pos _ (by simp [List.any_append, hd])]
    · by_cases hp : e.patterns.any (fun p => strContains low p) = true
      · rw [matchSenderLoop, if_neg hd, if_pos hp,
          List.find?_cons_of_pos _ (by simp [List.any_append, hp])]
      · rw [matchSenderLoop, if_neg hd, if_neg hp,
          List.find?_cons_of_neg _ (by simp [List.any_append, hd, hp]), ih]

/-! ### Claim theorems -/

/-- C9 (registry-bug evaluation): `_build_company_filter` maps the
direct key `"mckinsey"` and drops the unknown token silently, yielding
a predicate constrained to `mckinsey` only; but a known *domain* token
such as `"mckinsey.com"` maps to nothing (the filter is omitted),
because the variation check `company in [v.lower() for v in
variations]` iterates the inner dict's keys — so the literal token
`"domains"` even matches every company. -/
theorem C9_company_filter :
    buildCompanyFilter ["mckinsey", "not-a-real-company"]
      = some (Filter.companyIn ["mckinsey"]) ∧
    buildCompanyFilter ["mckinsey.com"] = none ∧
    buildCompanyFilter ["domains"]
      = some (Filter.companyIn (COMPANIES.map RegistryEntry.key)) :=
  ⟨rfl, rfl, rfl⟩

/-- C10: `match_sender` returns the sentinel `"unknown"` on a `None` or
empty from-field; otherwise it lowercases the field and returns the key
of the first registry company, in `COMPANIES` iteration order, one of
whose domain or pattern strings occurs as a substring anywhere in the
field — in particular the embedded occurrence of `ms.com` inside
`buyer@forms.com` attributes that address to `microsoft`; the result is
a function of the field alone, hence deterministic. -/
theorem C10_match_sender :
    matchSender none = "unknown" ∧
    matchSender (some "") = "unknown" ∧
    (∀ s : String, matchSender (some s) =
      if s = "" then "unknown"
      else
        (match COMPANIES.find?
            (fun e => (e.domains ++ e.patterns).any
              (fun m => strContains (pyLower s) m)) with
         | some e => e.key
         | none => "unknown")) ∧
    matchSender (some "buyer@forms.com") = "microsoft" := by
  refine ⟨rfl, rfl, ?_, by decide⟩
  intro s
  by_cases hs : s = ""
  · simp [matchSender, hs]
  · simp only [matchSender, hs, if_false]
    exact matchSenderLoopEqFind (pyLower s) COMPANIES

/-- C2 (counterexample): an end-to-end query against a healthy but
empty index — every service succeeds, the candidate pool is empty —
returns the payload `{type: 'error', message: 'No results found'}` from
the enhanced chain, not a `{type: 'empty'}` payload. -/
theorem C2_counterexample :
    enhancedSearch (fun _ => .ok []) (fun _ _ _ => .ok []) (fun _ => .ok [])
      ⟨"list", "t", none, []⟩ 1000 (7/10)
      = ChainPayload.error "No results found" ∧
    payloadType (ChainPayload.error "No results found") = "error" ∧
    ("error" : String) ≠ "empty" :=
  ⟨rfl, rfl, by decide⟩

/-- C2 (amended): an empty candidate pool yields `{type: 'empty'}` only
in `SearchExecutor._format_results`; the enhanced chain's formatter
yields `{type: 'error'}` on an empty pool, and an empty multi-keyword
intersection yields a `{type: 'count', count: 0}` payload. -/
theorem C2_empty_pool :
    (∀ (intentType : String) (limit : ℕ),
      execFmtType (execFormatResults intentType limit []) = "empty") ∧
    (∀ (intent topic : String) (company : Option String),
      payloadType (chainFormatResults intent topic company []) = "error") ∧
    (∀ (getSvc : List String → Except String (List Hit))
       (k1 k2 intent topic : String) (company : Option String)
       (limit : ℕ) (minRel : ℚ),
      enhancedSearch (fun _ => .ok []) (fun _ _ _ => .ok []) getSvc
        ⟨intent, topic, company, [k1, k2]⟩ limit minRel
        = ChainPayload.countNoMatch 0 topic minRel ∧
      payloadType (ChainPayload.countNoMatch 0 topic minRel) = "count") := by
  refine ⟨fun _ _ => rfl, fun _ _ _ => rfl, fun _ _ _ _ _ _ _ _ => ⟨rfl, rfl⟩⟩

/-- C3 (counterexample): `SearchExecutor.execute_search` has no
`try`/`except`, so a failing embedding call escapes the public boundary
as a raised exception (modelled `Except.error`), not as a well-formed
`{type: 'error'}` result payload. -/
theorem C3_counterexample :
    executeSearch (fun _ => .error "boom") (fun _ _ _ => .ok [])
      ⟨"list", "t", ⟨[], none, []⟩⟩ 1000
      = Except.error "Failed to get embedding: boom" :=
  rfl

/-- C3 (amended): the catch-all normalization into `{type: 'error',
message}` holds for `EnhancedEmailSearchChain.search` (its whole body is
wrapped in `try`/`except`), and any embedding-service failure there
surfaces as that payload; `SearchExecutor.execute_search`, by contrast,
propagates the failure to the caller as a raised exception. -/
theorem C3_error_handling :
    (∀ (e : String)
       (querySvc : List ℚ → Option Filter → ℕ → Except String (List Hit))
       (intent : QueryIntent) (limit : ℕ),
      executeSearch (fun _ => .error e) querySvc intent limit
        = .error ("Failed to get embedding: " ++ e)) ∧
    (∀ (e : String)
       (querySvc : List ℚ → Option (List String) → ℕ → Except String (List Hit))
       (getSvc : List String → Except String (List Hit))
       (parsed : ParsedQuery) (limit : ℕ) (minRel : ℚ),
      enhancedSearch (fun _ => .error e) querySvc getSvc parsed limit minRel
        = ChainPayload.error e) ∧
    (∀ (embedSvc : String → Except String (List ℚ))
       (querySvc : List ℚ → Option (List String) → ℕ → Except String (List Hit))
       (getSvc : List String → Except String (List Hit))
       (parsed : ParsedQuery) (limit : ℕ) (minRel : ℚ) (m : String),
      enhancedSearchBody embedSvc querySvc getSvc parsed limit minRel
        = .error m →
      enhancedSearch embedSvc querySvc getSvc parsed limit minRel
        = ChainPayload.error m) := by
  refine ⟨fun _ _ _ _ => rfl, ?_, ?_⟩
  · intro e querySvc getSvc parsed limit minRel
    suffices hbody : enhancedSearchBody (fun _ => .error e) querySvc getSvc
        parsed limit minRel = .error e by
      unfold enhancedSearch
      rw [hbody]
    unfold enhancedSearchBody
    cases hk : parsed.keywords with
    | nil => rfl
    | cons k ks =>
      cases ks with
      | nil => rfl
      | cons k2 ks2 =>
        have hgt : (k :: k2 :: ks2).length > 1 := by simp
        simp only [hgt, if_true]
        rfl
  · intro embedSvc querySvc getSvc parsed limit minRel m h
    unfold enhancedSearch
    rw [h]

/-- C3 (witness): applying the catch-all part of the amended statement
at a concrete failing embedding service. -/
theorem C3_witness :
    enhancedSearch (fun _ => .error "x") (fun _ _ _ => .ok [])
      (fun _ => .ok []) ⟨"list", "t", none, []⟩ 5 (7/10)
      = ChainPayload.error "x" :=
  C3_error_handling.2.2 _ _ _ _ _ _ _ rfl

/-- C1 (counterexample): the executor's score normalization
`_normalize_distances` is a fixed-scale map `max(0, 1 - d/300)`, so a
pool of equal distances (here two distances of 150) normalizes to 1/2
per element, not to the relevance 1.0 the claim requires for an
all-equal pool. -/
theorem C1_counterexample :
    normalizeDistances [150, 150] = [1/2, 1/2] ∧ ¬ ((1:ℚ)/2 = 1) := by
  constructor
  · norm_num [normalizeDistances, max_def]
  · norm_num

/-- C1 (amended): the min-max policy holds for the per-candidate
relevance computed inside `_filter_by_relevance`: one value per input
distance in the same order, each in `[0,1]`, equal to
`1 - ((d - d_min) / range)` when `range > 0` and to `1.0` when all
distances are equal, with no division by zero; the executor's
`_normalize_distances` also yields one value per distance in order, but
computes `max(0, 1 - d/300)` instead. -/
theorem C1_normalization :
    ∀ (distances : List ℚ),
      ((minMaxRelevances distances).length = distances.length ∧
       (normalizeDistances distances).length = distances.length) ∧
      (∀ (i : ℕ) (h1 : i < distances.length)
         (h2 : i < (minMaxRelevances distances).length),
        (minMaxRelevances distances).get ⟨i, h2⟩ =
          (if qMax distances - qMin distances > 0
           then 1 - ((distances.get ⟨i, h1⟩ - qMin distances)
             / (qMax distances - qMin distances))
           else 1)) ∧
      (∀ r ∈ minMaxRelevances distances, 0 ≤ r ∧ r ≤ 1) ∧
      (qMax distances - qMin distances = 0 →
        ∀ r ∈ minMaxRelevances distances, r = 1) ∧
      (∀ (i : ℕ) (h1 : i < distances.length)
         (h2 : i < (normalizeDistances distances).length),
        (normalizeDistances distances).get ⟨i, h2⟩ =
          max 0 (1 - distances.get ⟨i, h1⟩ / 300)) := by
  intro distances
  refine ⟨⟨by simp [minMaxRelevances], by simp [normalizeDistances]⟩,
    ?_, ?_, ?_, ?_⟩
  · intro i h1 h2
    simp only [minMaxRelevances, List.get_map, minMaxRel]
    split_ifs with h
    · rfl
    · norm_num
  · intro r hr
    simp only [minMaxRelevances, List.mem_map] at hr
    rcases hr with ⟨d, hd, rfl⟩
    have hmin : qMin distances ≤ d := qMin_le_mem hd
    have hmax : d ≤ qMax distances := mem_le_qMax hd
    rw [minMaxRel]
    split_ifs with h
    · constructor
      · have hq : (d - qMin distances) / (qMax distances - qMin distances) ≤ 1 :=
          (div_le_one h).mpr (by linarith)
        linarith
      · have hq : (0:ℚ) ≤ (d - qMin distances) / (qMax distances - qMin distances) :=
          div_nonneg (by linarith) h.le
        linarith
    · norm_num
  · intro h0 r hr
    simp only [minMaxRelevances, List.mem_map] at hr
    rcases hr with ⟨d, hd, rfl⟩
    rw [minMaxRel, h0]
    norm_num
  · intro i h1 h2
    simp only [normalizeDistances, List.get_map]

/-- C1 (witness): the amended statement at the pool `[1, 3]`. -/
theorem C1_witness :
    (minMaxRelevances [1, 3]).length = 2 ∧ (0 ≤ (1:ℚ) ∧ (1:ℚ) ≤ 1) :=
  ⟨(C1_normalization [1, 3]).1.1, (C1_normalization [1, 3]).2.2.1 1
    (by norm_num [minMaxRelevances, minMaxRel, qMin, qMax, min_def, max_def])⟩

/-- C4 (counterexample): on the ascending distances `[2, 4, 4]` the
claimed cliff rule (threshold `2 * 2.5 = 5`) would select all three
candidates, but the code's selection (`_filter_by_relevance` with its
default `min_relevance = 0.7`) keeps only the first. -/
theorem C4_counterexample :
    cliffSelectSpec (5/2) [2, 4, 4] = [2, 4, 4] ∧
    (filterByRelevance (7/10)
      [sampleHit "a" 2 0 none, sampleHit "b" 4 0 none,
       sampleHit "c" 4 0 none]).map Hit.id = ["a"] ∧
    (["a"] : List String) ≠ ["a", "b", "c"] := by
  refine ⟨?_, ?_, by decide⟩
  · norm_num [cliffSelectSpec, List.takeWhile, decide_eq_true_eq]
  · norm_num [filterByRelevance, sampleHit, qMin, qMax, minMaxRel,
      min_def, max_def, List.filterMap]

/-- C4 (amended): the code's selection step is not a `best * 2.5`
distance threshold: `_filter_by_relevance` keeps exactly the hits whose
min-max relevance reaches `min_relevance` — for a pool with positive
range, the hits with `d ≤ d_min + (1 - min_relevance) * range` — which
on the spec's example `[1.0, 1.2, 2.0, 2.1, 10.0]` (default 0.7) also
selects exactly the first four; an empty input is returned unchanged,
without error. -/
theorem C4_selection :
    (∀ minRel : ℚ, filterByRelevance minRel [] = []) ∧
    ((filterByRelevance (7/10)
      [sampleHit "a" 1 0 none, sampleHit "b" (6/5) 0 none,
       sampleHit "c" 2 0 none, sampleHit "d" (21/10) 0 none,
       sampleHit "e" 10 0 none]).map Hit.id = ["a", "b", "c", "d"]) ∧
    (∀ minDist distRange d minRel : ℚ, 0 < distRange →
      (minRel ≤ minMaxRel minDist distRange d ↔
        d ≤ minDist + (1 - minRel) * distRange)) := by
  refine ⟨fun _ => rfl, ?_, ?_⟩
  · norm_num [filterByRelevance, sampleHit, qMin, qMax, minMaxRel,
      min_def, max_def, List.filterMap]
  · intro minDist distRange d minRel h
    rw [minMaxRel, if_pos h]
    constructor
    · intro hle
      have hq : (d - minDist) / distRange ≤ 1 - minRel := by linarith
      have := (div_le_iff₀ h).mp hq
      linarith
    · intro hle
      have hq : d - minDist ≤ (1 - minRel) * distRange := by linarith
      have hdiv : (d - minDist) / distRange ≤ 1 - minRel :=
        (div_le_iff₀ h).mpr hq
      linarith

/-- C4 (witness): the threshold characterization of the amended
statement at `d_min = 0`, `range = 1`, `d = 1/2`, `min_relevance =
0.7`. -/
theorem C4_witness :
    (7:ℚ)/10 ≤ minMaxRel 0 1 (1/2) ↔ (1/2:ℚ) ≤ 0 + (1 - 7/10) * 1 :=
  C4_selection.2.2 0 1 (1/2) (7/10) (by norm_num)

/-- C5 (counterexample): a non-timeline, non-trend (`list`) query whose
pool holds a high-relevance old hit (distance 30, similarity 0.9, date
100) and a low-relevance recent hit (distance 240, similarity 0.2, date
200) is delivered by `execute_search` in consolidation (date-descending)
order — output distances `[0.8, 0.1]` — not in descending relevance /
ascending distance order. -/
theorem C5_counterexample :
    ((executeSearchPure "list" 2
      [sampleHit "a" 30 100 none, sampleHit "b" 240 200 none]).results.map
      ExecItem.distance) = [4/5, 1/10] ∧
    ¬ ((4:ℚ)/5 ≤ 1/10) := by
  constructor
  · norm_num [executeSearchPure, combineHits, normalizeDistances, sortDescBy,
      insDescBy, consolidateResults, consolidateLoop, consolidateStep,
      defaultSimilarityThreshold, sampleHit, max_def, abs_lt, List.find?]
  · norm_num

/-- C5 (amended): descending-relevance delivery holds in the enhanced
chain's formatter — for every non-`count` intent its `results` list is
sorted by descending `relevance` (and that formatter applies no
timeline/trend reordering); the executor's `execute_search` instead
delivers the consolidation order for every intent type. -/
theorem C5_relevance_order :
    ∀ (intent topic : String) (company : Option String) (hits : List Hit),
      intent ≠ "count" →
      (payloadResults (chainFormatResults intent topic company hits)).Pairwise
        (fun x y => y.relevance ≤ x.relevance) := by
  intro intent topic company hits hintent
  cases hits with
  | nil => simp [chainFormatResults, payloadResults]
  | cons h t =>
    simp only [chainFormatResults, List.isEmpty_cons, Bool.false_eq_true,
      if_false, hintent, payloadResults]
    exact sortDescBy_pairwise ChainItem.relevance _

/-- C5 (witness): the amended statement at a concrete two-hit pool with
`list` intent. -/
theorem C5_witness :
    (payloadResults (chainFormatResults "list" "t" none
      [sampleHit "a" 1 0 none, sampleHit "b" 2 0 none])).Pairwise
      (fun x y => y.relevance ≤ x.relevance) :=
  C5_relevance_order "list" "t" none _ (by decide)

/-- C8: for a `count` intent the enhanced chain's formatter returns a
payload of type `count` whose `count` equals the length of its input
candidate sequence — the formatter takes no limit, so no truncation is
applied; and the executor's `count`-intent output has type `count` with
a `consolidated_results` field independent of the limit. -/
theorem C8_count_payload :
    (∀ (topic : String) (company : Option String) (hits : List Hit),
      hits ≠ [] →
      payloadType (chainFormatResults "count" topic company hits) = "count" ∧
      payloadCount (chainFormatResults "count" topic company hits)
        = some hits.length) ∧
    (∀ (limit1 limit2 : ℕ) (hits : List Hit),
      (executeSearchPure "count" limit1 hits).type = "count" ∧
      (executeSearchPure "count" limit1 hits).consolidatedResults
        = (executeSearchPure "count" limit2 hits).consolidatedResults) := by
  constructor
  · intro topic company hits hne
    cases hits with
    | nil => exact absurd rfl hne
    | cons h t => exact ⟨rfl, rfl⟩
  · intro limit1 limit2 hits
    exact ⟨rfl, rfl⟩

/-- C8 (witness): five candidates yield `{type: 'count', count: 5}`. -/
theorem C8_witness :
    payloadType (chainFormatResults "count" "t" none
      [sampleHit "a" 1 0 none, sampleHit "b" 2 0 none, sampleHit "c" 3 0 none,
       sampleHit "d" 4 0 none, sampleHit "e" 5 0 none]) = "count" ∧
    payloadCount (chainFormatResults "count" "t" none
      [sampleHit "a" 1 0 none, sampleHit "b" 2 0 none, sampleHit "c" 3 0 none,
       sampleHit "d" 4 0 none, sampleHit "e" 5 0 none]) = some 5 :=
  C8_count_payload.1 "t" none _ (by decide)

/-- C6 (counterexample): the thread-dedup guards are Python truthiness
tests, so an *empty-string* `thread_id` — non-null — is never deduped:
two candidates both in thread `""` with different dates (similarities
0.5 and 0.0, too far apart for the near-duplicate rule) both survive
consolidation, violating "at most one entry per non-null thread_id"
and the more-recent-only example at that thread id. -/
theorem C6_counterexample :
    consolidateResults (19/20)
      [sampleRes "r1" (1/2) 200 (some ""), sampleRes "r2" 0 100 (some "")]
      = [sampleRes "r1" (1/2) 200 (some ""), sampleRes "r2" 0 100 (some "")] ∧
    ((consolidateResults (19/20)
      [sampleRes "r1" (1/2) 200 (some ""), sampleRes "r2" 0 100 (some "")]).filter
      (fun r => r.meta.threadId == some "")).length = 2 ∧
    ¬ ((2:ℕ) ≤ 1) := by
  refine ⟨?_, ?_, by decide⟩
  · norm_num [consolidateResults, consolidateLoop, consolidateStep,
      sortDescBy, insDescBy, sampleRes, abs_lt, List.find?]
  · norm_num [consolidateResults, consolidateLoop, consolidateStep,
      sortDescBy, insDescBy, sampleRes, abs_lt, List.find?, List.filter]

/-- C6 (amended): consolidation keeps at most one entry per *truthy*
(present and non-empty) `thread_id`, for every input and closeness; of
exactly two candidates sharing a non-empty `thread_id` with different
dates only the more recent one appears in the output, in either input
order.  An empty-string `thread_id` is falsy in the source's guards and
is never thread-deduplicated. -/
theorem C6_thread_consolidation :
    (∀ (st : ℚ) (results : List ExecResult) (t : String), t ≠ "" →
      ((consolidateResults st results).filter
        (fun r => r.meta.threadId == some t)).length ≤ 1) ∧
    (∀ (st : ℚ) (a b : ExecResult) (t : String), t ≠ "" →
      a.meta.threadId = some t → b.meta.threadId = some t →
      b.meta.date < a.meta.date →
      consolidateResults st [a, b] = [a] ∧
      consolidateResults st [b, a] = [a]) := by
  constructor
  · intro st results t ht
    refine pairwise_filter_tid ?_ t ht
    exact consolidateLoop_pairwise st _ [] [] (by simp) List.Pairwise.nil
  · intro st a b t ht ha hb hd
    constructor
    · rw [consolidateResults, sortDescBy_pair, if_pos hd.le]
      exact consolidateLoop_two_same st a b t ht ha hb
    · rw [consolidateResults, sortDescBy_pair, if_neg (not_le.mpr hd)]
      exact consolidateLoop_two_same st a b t ht ha hb

/-- C6 (witness): two candidates in the non-empty thread `"T"`, dates 5
and 3 — only the more recent (date 5) survives, and the filter
invariant holds. -/
theorem C6_witness :
    ((consolidateResults (19/20) [sampleRes "a" (9/10) 5 (some "T"),
        sampleRes "b" (1/10) 3 (some "T")]).filter
      (fun r => r.meta.threadId == some "T")).length ≤ 1 ∧
    consolidateResults (19/20) [sampleRes "a" (9/10) 5 (some "T"),
      sampleRes "b" (1/10) 3 (some "T")] = [sampleRes "a" (9/10) 5 (some "T")] :=
  ⟨C6_thread_consolidation.1 (19/20) _ "T" (by decide),
   (C6_thread_consolidation.2 (19/20) _ _ "T" (by decide) rfl rfl
     (by norm_num [sampleRes])).1⟩

/-- C7: during consolidation, two candidates (not sharing a present
`thread_id`) whose relevance values differ by strictly less than the
closeness `1 - similarity_threshold` (0.05 at the default 0.95) are
near-duplicates: only the higher-relevance one survives, in either
input order. -/
theorem C7_near_duplicate :
    ∀ (st : ℚ) (a b : ExecResult),
      (a.meta.threadId = none ∨ b.meta.threadId = none ∨
        a.meta.threadId ≠ b.meta.threadId) →
      |a.similarity - b.similarity| < 1 - st →
      b.similarity < a.similarity →
      consolidateResults st [a, b] = [a] ∧
      consolidateResults st [b, a] = [a] := by
  intro st a b hth hclose hlt
  have hskip : ∀ t1 t2, a.meta.threadId = some t1 →
      b.meta.threadId = some t2 → t1 ≠ t2 := by
    intro t1 t2 h1 h2 he
    rcases hth with h | h | h
    · rw [h] at h1; cases h1
    · rw [h] at h2; cases h2
    · exact h (by rw [h1, h2, he])
  have hskip2 : ∀ t1 t2, b.meta.threadId = some t1 →
      a.meta.threadId = some t2 → t1 ≠ t2 :=
    fun t1 t2 h1 h2 he => hskip t2 t1 h2 h1 he.symm
  have hstepAB : consolidateStep st (consolidateStep st [] a) b = [a] := by
    rw [consolidateStep_nil]
    unfold consolidateStep
    rw [List.find?_cons_of_pos _ (by simpa using hclose)]
    dsimp only
    rw [if_neg (not_lt.mpr hlt.le)]
  have hstepBA : consolidateStep st (consolidateStep st [] b) a = [a] := by
    have hclose2 : |b.similarity - a.similarity| < 1 - st := by
      rwa [abs_sub_comm] at hclose
    rw [consolidateStep_nil]
    unfold consolidateStep
    rw [List.find?_cons_of_pos _ (by simpa using hclose2)]
    dsimp only
    rw [if_pos hlt, List.erase_cons_head, List.nil_append]
  constructor
  · rw [consolidateResults, sortDescBy_pair]
    by_cases hd : b.meta.date ≤ a.meta.date
    · rw [if_pos hd, consolidateLoop_two st a b hskip, hstepAB]
    · rw [if_neg hd, consolidateLoop_two st b a hskip2, hstepBA]
  · rw [consolidateResults, sortDescBy_pair]
    by_cases hd : a.meta.date ≤ b.meta.date
    · rw [if_pos hd, consolidateLoop_two st b a hskip2, hstepBA]
    · rw [if_neg hd, consolidateLoop_two st a b hskip, hstepAB]

/-- C7 (witness): candidates with relevance 0.83 and 0.81 under the
default closeness (0.05) collapse to the single higher-relevance entry,
whichever order they arrive in. -/
theorem C7_witness :
    consolidateResults defaultSimilarityThreshold
      [sampleRes "a" (83/100) 100 none, sampleRes "b" (81/100) 200 none]
      = [sampleRes "a" (83/100) 100 none] ∧
    consolidateResults defaultSimilarityThreshold
      [sampleRes "b" (81/100) 200 none, sampleRes "a" (83/100) 100 none]
      = [sampleRes "a" (83/100) 100 none] :=
  C7_near_duplicate defaultSimilarityThreshold _ _ (Or.inl rfl)
    (by norm_num [sampleRes, defaultSimilarityThreshold, abs_lt])
    (by norm_num [sampleRes])

end Newsletterz
